import Mathlib

/-!
Verification of the core logic of `src/main_app.py`, a MicroPython
weather-clock firmware.  The development shallowly embeds the parts of the
program that the specification talks about:

* the bounded-memory stream extractors
  (`extract_first_number_stream_generic`, `fetch_first_station_id`,
  `extract_first_json_string_value_stream`),
* the NWS metadata resolver (`get_nws_metadata`),
* the weather-acquisition dataflow (`get_weather_data`),
* the forecast-text classifier (`simplify_forecast`),
* the firmware-update finalize handler (`finalize_handler`).

Python strings and byte strings are modelled as `List Char`.  Network I/O
is modelled by passing the bytes a successful request would deliver (or
the already-parsed fields of a small JSON document) as explicit arguments;
a compiled regex object is modelled as an abstract search function, since
the loops using it are generic in the pattern.
-/

/-- Python strings and byte strings are modelled as lists of characters. -/
abbrev PStr := List Char

/-- Python `haystack.find(needle)`: index of the first occurrence of
`pat` in `l`, with `none` standing for CPython's `-1`. -/
def pyFind (l pat : PStr) : Option Nat :=
  (List.range (l.length + 1)).find? (fun i => pat.isPrefixOf (l.drop i))

/-- Python `haystack.find(needle, start)`: first occurrence at index ≥ `start`
(the index returned is absolute, as in Python). -/
def pyFindFrom (l pat : PStr) (start : Nat) : Option Nat :=
  (pyFind (l.drop start) pat).map (· + start)

/-- Python `needle in haystack`. -/
def pyContains (l pat : PStr) : Bool :=
  (pyFind l pat).isSome

/-- Characters removed by Python's default `str.strip()` (ASCII whitespace). -/
def pySpace (c : Char) : Bool :=
  c = ' ' || c = '\t' || c = '\n' || c = '\x0d' || c = '\x0b' || c = '\x0c'

/-- Python `s.strip()`. -/
def pyStrip (l : PStr) : PStr :=
  ((l.dropWhile pySpace).reverse.dropWhile pySpace).reverse

/-- Python `s.lower()` (the forecast strings involved are ASCII). -/
def pyLower (l : PStr) : PStr :=
  l.map Char.toLower

/-- Python truthiness of an optional string: `None` and `""` are falsy. -/
def pyTruthy : Option PStr → Bool
  | none => false
  | some s => !s.isEmpty

/-- The rolling-buffer trim `buf = buf[-max_buf:]`, guarded by
`if len(buf) > max_buf:` in every streaming extractor of the source. -/
def pyTrim (cap : Nat) (buf : PStr) : PStr :=
  if buf.length > cap then buf.drop (buf.length - cap) else buf

/-! ## Stream extractors (src/main_app.py lines 841-942)

Each extractor reads a byte source in fixed-size chunks, keeps a rolling
buffer trimmed to a fixed cap, and searches the buffer after every chunk.
The byte source is modelled as the full byte sequence the network would
deliver; `read(n)` takes the next `n` bytes of the remainder.  The Python
`while True:` loops are modelled with an explicit step bound (`fuel`):
every iteration consumes at least one byte of the remainder, so
`stream.length + 1` steps always suffice and the 0-fuel branch is
unreachable from the wrappers below. -/

/-- Buffer cap of `extract_first_number_stream_generic` (line 922). -/
def ensg_max_buf : Nat := 4096

/-- Chunk size of `extract_first_number_stream_generic` (line 926). -/
def ensg_chunk : Nat := 256

/-- Loop body of `extract_first_number_stream_generic` (lines 925-942).
`prog` models the compiled regex: it returns the first capture group of
the first match in the buffer, if any.  `toFloat` models Python `float()`
applied to the capture, with `none` for a raised `ValueError` (which the
source catches and turns into `None`). -/
def ensg_loop (prog : PStr → Option PStr) (toFloat : PStr → Option ℚ) :
    Nat → PStr → PStr → Option ℚ
  | 0, _, _ => none
  | fuel + 1, buf, rem =>
    let chunk := rem.take ensg_chunk
    if chunk.isEmpty then none
    else
      let buf1 := pyTrim ensg_max_buf (buf ++ chunk)
      match prog buf1 with
      | some g => toFloat g
      | none => ensg_loop prog toFloat fuel buf1 (rem.drop ensg_chunk)

/-- `extract_first_number_stream_generic` (lines 910-942). -/
def extract_first_number_stream_generic (prog : PStr → Option PStr)
    (toFloat : PStr → Option ℚ) (stream : PStr) : Option ℚ :=
  ensg_loop prog toFloat (stream.length + 1) [] stream

/-- Buffer cap of `fetch_first_station_id` (line 876). -/
def fsi_max_buf : Nat := 4096

/-- Chunk size of `fetch_first_station_id` (line 879). -/
def fsi_chunk : Nat := 256

/-- The key searched by `fetch_first_station_id`: `b'"id":'` (line 875). -/
def fsi_key : PStr := "\"id\":".data

/-- Python `url.rsplit("/", 1)[-1]`: the segment after the last `/`
(or the whole string when there is no `/`). -/
def rsplitSlashLast (url : PStr) : PStr :=
  (url.reverse.takeWhile (· ≠ '/')).reverse

/-- Loop body of `fetch_first_station_id` (lines 878-908). -/
def fsi_loop : Nat → PStr → PStr → Option PStr
  | 0, _, _ => none
  | fuel + 1, buf, rem =>
    let chunk := rem.take fsi_chunk
    if chunk.isEmpty then none
    else
      let buf1 := pyTrim fsi_max_buf (buf ++ chunk)
      match pyFind buf1 fsi_key with
      | some idx =>
        match pyFindFrom buf1 "\"".data (idx + fsi_key.length) with
        | some sq =>
          match pyFindFrom buf1 "\"".data (sq + 1) with
          | some eq =>
            let url := (buf1.drop (sq + 1)).take (eq - (sq + 1))
            if pyContains url "/stations/".data then
              some (rsplitSlashLast url)
            else
              fsi_loop fuel (buf1.drop (eq + 1)) (rem.drop fsi_chunk)
          | none => fsi_loop fuel buf1 (rem.drop fsi_chunk)
        | none => fsi_loop fuel buf1 (rem.drop fsi_chunk)
      | none => fsi_loop fuel buf1 (rem.drop fsi_chunk)

/-- `fetch_first_station_id` (lines 865-908), applied to the bytes of the
observation-stations document.  Returns the trailing path segment of the
first `"id"` URL containing `/stations/`, or `none` when the stream ends
without one. -/
def fetch_first_station_id (stream : PStr) : Option PStr :=
  fsi_loop (stream.length + 1) [] stream

/-- Buffer cap of `extract_first_json_string_value_stream` (line 849):
1024 bytes, unlike the 4096-byte cap of the other two variants. -/
def ejs_max_buf : Nat := 1024

/-- Chunk size of `extract_first_json_string_value_stream` (line 851):
128 bytes, unlike the 256-byte chunks of the other two variants. -/
def ejs_chunk : Nat := 128

/-- Loop body of `extract_first_json_string_value_stream` (lines 850-863). -/
def ejs_loop (key_bytes : PStr) : Nat → PStr → PStr → Option PStr
  | 0, _, _ => none
  | fuel + 1, buf, rem =>
    let chunk := rem.take ejs_chunk
    if chunk.isEmpty then none
    else
      let buf1 := pyTrim ejs_max_buf (buf ++ chunk)
      match pyFind buf1 key_bytes with
      | some idx =>
        let start := idx + key_bytes.length
        match pyFindFrom buf1 "\"".data start with
        | some e => some ((buf1.drop start).take (e - start))
        | none => ejs_loop key_bytes fuel buf1 (rem.drop ejs_chunk)
      | none => ejs_loop key_bytes fuel buf1 (rem.drop ejs_chunk)

/-- `extract_first_json_string_value_stream` (lines 841-863): stream-parse
for the first `"key":"value"` pair and return the value. -/
def extract_first_json_string_value_stream (key stream : PStr) : Option PStr :=
  ejs_loop ("\"".data ++ key ++ "\":\"".data) (stream.length + 1) [] stream

/-- `extract_first_json_string_value` (lines 814-839): non-streaming scan of
a raw JSON text for the first string value of `key`. -/
def extract_first_json_string_value (raw key : PStr) : Option PStr :=
  let search_key := "\"".data ++ key ++ "\"".data
  match pyFind raw search_key with
  | none => none
  | some idx =>
    match pyFindFrom raw ":".data (idx + search_key.length) with
    | none => none
    | some colon =>
      match pyFindFrom raw "\"".data (colon + 1) with
      | none => none
      | some sq =>
        match pyFindFrom raw "\"".data (sq + 1) with
        | none => none
        | some eq => some ((raw.drop (sq + 1)).take (eq - (sq + 1)))

/-! ## Metadata resolver (src/main_app.py lines 949-996) -/

/-- The metadata dictionary built by `get_nws_metadata` and consumed by
`get_weather_data`.  Each field models a Python dict entry whose value may
be `None` (the source only `get`s them, never validates presence of the
two URLs). -/
structure MetaDict where
  forecast_url : Option PStr
  hourly_url : Option PStr
  station_id : Option PStr
deriving DecidableEq

/-- The fields `get_nws_metadata` reads from the parsed `points` JSON
document (`properties.forecast`, `.observationStations`, `.forecastHourly`,
`.gridId`, `.gridX`, `.gridY`); `none` models an absent key. -/
structure PointProps where
  forecast : Option PStr
  observationStations : Option PStr
  forecastHourly : Option PStr
  gridId : Option PStr
  gridX : Option Int
  gridY : Option Int

/-- The hourly-URL selection of `get_nws_metadata` (lines 965-973): keep
`properties.forecastHourly` when truthy, otherwise construct the gridpoint
URL when the office is truthy and both grid coordinates are present. -/
def hourly_fallback (props : PointProps) : Option PStr :=
  if !pyTruthy props.forecastHourly then
    match props.gridId, props.gridX, props.gridY with
    | some office, some gx, some gy =>
      if !office.isEmpty then
        some ("https://api.weather.gov/gridpoints/".data ++ office
          ++ "/".data ++ (toString gx).data ++ ",".data
          ++ (toString gy).data ++ "/forecast/hourly".data)
      else props.forecastHourly
    | _, _, _ => props.forecastHourly
  else props.forecastHourly

/-- `get_nws_metadata` (lines 949-996).  `stationBody` is the byte stream a
request for the observation-stations URL would deliver.  A `None`
observation-stations URL makes `urequests.get` raise, which the handler's
`except` turns into a `None` result; all other network steps are modelled
as succeeding with the given bodies.  Only the station id is checked
before the unit is returned. -/
def get_nws_metadata (props : PointProps) (stationBody : PStr) :
    Option MetaDict :=
  match props.observationStations with
  | none => none
  | some _ =>
    match fetch_first_station_id stationBody with
    | none => none
    | some sid =>
      if sid.isEmpty then none
      else some ⟨props.forecast, hourly_fallback props, some sid⟩

/-! ## Weather acquisition (src/main_app.py lines 999-1243) -/

/-- Python / MicroPython `round()` on the exact value of its argument:
nearest integer, ties to even (MicroPython rounds via `nearbyint` in the
default rounding mode; CPython's `round` also ties to even). -/
def pyRound (q : ℚ) : ℤ :=
  let f := ⌊q⌋
  let r := q - (f : ℚ)
  if r < 1 / 2 then f
  else if 1 / 2 < r then f + 1
  else if Even f then f else f + 1

/-- Python `int()` on a float value: truncation toward zero. -/
def pyInt (q : ℚ) : ℤ :=
  if 0 ≤ q then ⌊q⌋ else -⌊-q⌋

/-- The primary-path Celsius→Fahrenheit conversion
`temp_f = round(temp_c * 9 / 5 + 32)` (line 1101). -/
def obs_temp_f (c : ℚ) : ℤ :=
  pyRound (c * 9 / 5 + 32)

/-- Specification-side comparator for claim C5, modelled from the spec's
words: rounding with round-half-away-from-zero semantics.  It is compared
against the source-derived `obs_temp_f` / `pyRound`. -/
def roundHalfAwayFromZero (q : ℚ) : ℤ :=
  if 0 ≤ q then ⌊q + 1 / 2⌋ else ⌈q - 1 / 2⌉

/-- The outcomes of the five network/extraction steps `get_weather_data`
performs, in source order.  Each `Option ℚ` is the result of a successful
HTTP request streamed through `extract_first_number_stream_generic`
(`none` = pattern not found); `forecastDoc` is `r.text` of the forecast
URL, with `none` modelling a fetch exception. -/
structure WeatherFetch where
  primaryTemp : Option ℚ
  primaryHum : Option ℚ
  fallbackTemp : Option ℚ
  fallbackHum : Option ℚ
  forecastDoc : Option PStr

/-- `get_weather_data` (lines 999-1243), returning
`(temp_f, humidity, forecast)` or `none` for the `(None, None, None)`
total-failure return.  Notes kept from the source:
* incomplete metadata triggers a refresh call `get_nws_metadata(lat, lon,
  headers)` which passes three arguments to a two-parameter function and
  therefore always raises `TypeError`; the outer handler returns
  `(None, None, None)` — modelled as `none`;
* the humidity observation request is only issued when the temperature
  extraction succeeded (lines 1090-1095);
* the fallback Celsius value `round((temp_f_fb - 32) * 5 / 9)` is
  bookkeeping only (never returned), so it is not re-exposed here;
* the final safety check turns a still-`None` field into 0. -/
def get_weather_data (metadata : MetaDict) (io : WeatherFetch) :
    Option (ℤ × ℤ × PStr) :=
  if !pyTruthy metadata.station_id || !pyTruthy metadata.forecast_url
      || !pyTruthy metadata.hourly_url then
    none
  else
    let temp_c_val := io.primaryTemp
    let humidity_val := if temp_c_val.isSome then io.primaryHum else none
    let temp_c0 : Option ℚ := temp_c_val
    let temp_f0 : Option ℤ := temp_c_val.map obs_temp_f
    let humidity0 : Option ℤ := humidity_val.map pyInt
    let needFallback := temp_c0.isNone || humidity0.isNone
    let temp_f1 : Option ℤ :=
      if needFallback && temp_c0.isNone then
        match io.fallbackTemp with
        | some v => some (pyRound v)
        | none => some 0
      else temp_f0
    let humidity1 : Option ℤ :=
      if needFallback && humidity0.isNone then
        match io.fallbackHum with
        | some v => some (pyInt v)
        | none => some 0
      else humidity0
    let forecast :=
      match io.forecastDoc with
      | none => "N/A".data
      | some raw =>
        match extract_first_json_string_value raw "shortForecast".data with
        | none => "N/A".data
        | some f => if f.isEmpty then "N/A".data else f
    some (temp_f1.getD 0, humidity1.getD 0, forecast)

/-- Request open/close events, for stating the resource behaviour of the
primary observation path. -/
inductive ReqEvent
  | openReq
  | closeReq
deriving DecidableEq

/-- The primary observation path of `get_weather_data` (lines 1078-1097)
instrumented with the request events it performs: a first request streamed
for temperature and closed, then — only if the temperature extraction
succeeded — a second fresh request streamed for humidity and closed.
`obsBody` is the byte stream the observation endpoint delivers. -/
def observation_requests (progT progH : PStr → Option PStr)
    (toFloat : PStr → Option ℚ) (obsBody : PStr) :
    Option ℚ × Option ℚ × List ReqEvent :=
  let tv := extract_first_number_stream_generic progT toFloat obsBody
  match tv with
  | some v =>
    (some v, extract_first_number_stream_generic progH toFloat obsBody,
      [.openReq, .closeReq, .openReq, .closeReq])
  | none => (none, none, [.openReq, .closeReq])

/-- A request trace is well nested when opens and closes alternate,
starting closed and ending closed: no request is opened before the
previous one is closed. -/
def wellNested : Bool → List ReqEvent → Bool
  | false, [] => true
  | false, .openReq :: t => wellNested true t
  | true, .closeReq :: t => wellNested false t
  | _, _ => false

/-! ## Forecast classifier (src/main_app.py lines 1246-1360) -/

/-- The modifier phrase list (line 1247). -/
def MODIFIERS : List PStr :=
  ["Slight Chance".data, "Chance".data, "Mostly".data, "Partly".data,
   "Likely".data, "Scattered".data, "Isolated".data]

/-- The condition phrase list (lines 1248-1258).  The source is missing a
comma after `"Winter Weather"`, so Python concatenates the two adjacent
literals into the single entry `"Winter WeatherFreezing Rain"`; the list
is reproduced with that concatenation. -/
def CONDITIONS : List PStr :=
  ["Tornado".data, "Hailstorm".data, "Hailstorms".data, "Blizzard".data,
   "Winter Storm".data, ("Winter Weather".data ++ "Freezing Rain".data),
   "Freezing Drizzle".data, "Hail".data, "Sleet".data, "Ice".data,
   "Frost".data, "Flash Flood".data, "Flood".data, "Dust Storm".data,
   "Smoke".data, "Volcanic Ash".data, "Hurricane".data,
   "Tropical storm".data, "Thunderstorm".data, "Thunderstorms".data,
   "T-storms".data, "Tstorms".data, "Storm".data, "Showers".data,
   "Rain".data, "Fog".data, "Snow".data, "Clear".data, "Sunny".data,
   "Cloudy".data, "Windy".data, "Gusty".data, "Wind".data, "Drizzle".data,
   "Haze".data]

/-- The strong separators of step 1, in source order (line 1267). -/
def SEPS : List PStr := [" then ".data, ";".data, ",".data]

/-- The separator-truncation loop (lines 1267-1270): for the first
separator present in the lowercased text, keep the lowercased text before
its first occurrence; otherwise leave the text unchanged. -/
def truncate_forecast (fc : PStr) : PStr :=
  match SEPS.find? (fun sep => pyContains (pyLower fc) sep) with
  | some sep =>
    match pyFind (pyLower fc) sep with
    | some i => (pyLower fc).take i
    | none => pyLower fc
  | none => fc

/-- Python `<` on strings, as a Bool (lexicographic on code points). -/
def strLtB : PStr → PStr → Bool
  | [], [] => false
  | [], _ :: _ => true
  | _ :: _, [] => false
  | a :: as, b :: bs =>
    if a < b then true else if b < a then false else strLtB as bs

/-- The comparison used by `found_modifiers.sort(key=lambda x: x[0])`
(line 1290): ascending first component only. -/
def posLe (x y : Nat × PStr) : Prop := x.1 ≤ y.1

instance : DecidableRel posLe := fun x y => Nat.decLe x.1 y.1

/-- The comparison used by `priority_found_conditions.sort()` (line 1297):
ascending lexicographic order on the `(index, pos, cond)` tuples. -/
def tripLe (x y : Nat × Nat × PStr) : Prop :=
  if x.1 < y.1 then True
  else if y.1 < x.1 then False
  else if x.2.1 < y.2.1 then True
  else if y.2.1 < x.2.1 then False
  else strLtB y.2.2 x.2.2 = false

instance : DecidableRel tripLe := fun x y => by
  unfold tripLe; infer_instance

/-- `found_modifiers` (lines 1277-1281): each modifier present in the
text, with the position of its first occurrence, in list order. -/
def found_modifiers (u : PStr) : List (Nat × PStr) :=
  MODIFIERS.filterMap (fun m => (pyFind u (pyLower m)).map (fun p => (p, m)))

/-- `found_conditions` (lines 1283-1287). -/
def found_conditions (u : PStr) : List (Nat × PStr) :=
  CONDITIONS.filterMap (fun c => (pyFind u (pyLower c)).map (fun p => (p, c)))

/-- `priority_found_conditions` (lines 1295-1296): tag each found
condition with its index in `CONDITIONS` (the membership guard of the
comprehension is kept although it is always true for found conditions). -/
def priority_found_conditions (u : PStr) : List (Nat × Nat × PStr) :=
  (found_conditions u).filterMap (fun pc =>
    if pc.2 ∈ CONDITIONS then some (CONDITIONS.indexOf pc.2, pc.1, pc.2)
    else none)

/-- The composite entry builder equal to building `found_conditions` and
then `priority_found_conditions` in one pass (used to reason about the
selection order). -/
def condTag (u c : PStr) : Option (Nat × Nat × PStr) :=
  ((pyFind u (pyLower c)).map (fun p => (p, c))).bind (fun pc =>
    if pc.2 ∈ CONDITIONS then some (CONDITIONS.indexOf pc.2, pc.1, pc.2)
    else none)

/-- `found_modifier` (lines 1290-1291): earliest-position modifier, or
`""` when none was found. -/
def found_modifier (u : PStr) : PStr :=
  match List.insertionSort posLe (found_modifiers u) with
  | [] => []
  | (_, m) :: _ => m

/-- `found_condition` (lines 1297-1298): the condition of the least
`(index, pos, cond)` tuple, or `""` when none was found. -/
def found_condition (u : PStr) : PStr :=
  match List.insertionSort tripLe (priority_found_conditions u) with
  | [] => []
  | t :: _ => t.2.2

/-- The no-modifier length rule (lines 1302-1304). -/
def compress_no_modifier (c : PStr) : PStr :=
  if pyLower c = "freezing drizzle".data then "Frzing Drizzle".data else c

/-- The modifier length rules (lines 1308-1314): sequential reassigning
`if`s, as in the source. -/
def compress_modifier (m0 : PStr) : PStr :=
  let m1 := if pyLower m0 = "isolated".data then "Isol".data else m0
  let m2 := if pyLower m1 = "slight chance".data then "Chance".data else m1
  let m3 := if pyLower m2 = "scattered".data then "Scattr".data else m2
  m3

/-- The condition length rules under a modifier (lines 1315-1347); the
duplicated `"thunderstorms"` test in the source is a no-op and is kept
collapsed. -/
def compress_condition (c0 : PStr) : PStr :=
  let c := if pyLower c0 = "hailstorm".data then "Hailstrm".data else c0
  let c := if pyLower c = "hailstorms".data then "Hailstrm".data else c
  let c := if pyLower c = "blizzard".data then "Blizzrd".data else c
  let c := if pyLower c = "winter storm".data then "Wint St".data else c
  let c := if pyLower c = "winter weather".data then "Wint Wth".data else c
  let c := if pyLower c = "freezing rain".data then "Fr Rain".data else c
  let c := if pyLower c = "freezing drizzle".data then "Fr Drzl".data else c
  let c := if pyLower c = "flash flood".data then "Fl Flood".data else c
  let c := if pyLower c = "dust storm".data then "Dust St".data else c
  let c := if pyLower c = "volcanic ash".data then "Volc Ash".data else c
  let c := if pyLower c = "hurricane".data then "Hurrcan".data else c
  let c := if pyLower c = "tropical storm".data then "Trop St".data else c
  let c := if pyLower c = "thunderstorm".data then "Tstorms".data else c
  let c := if pyLower c = "thunderstorms".data then "Tstorms".data else c
  let c := if pyLower c = "t-storms".data then "Tstorms".data else c
  c

/-- The classifier body after separator truncation (lines 1272-1360):
strip and lowercase, pick modifier and condition, apply the length rules,
and produce either `"{modifier} {condition}"[:14]` or the capitalized
first-14-characters fallback. -/
def simplify_after_sep (t : PStr) : PStr :=
  let u := pyLower (pyStrip t)
  let fm := found_modifier u
  let fc := found_condition u
  let fm1 := fm
  let fc1 := if fm.isEmpty then compress_no_modifier fc else compress_condition fc
  let fm2 := if fm.isEmpty then fm1 else compress_modifier fm1
  let phrase := pyStrip (fm2 ++ " ".data ++ fc1)
  if fc1.isEmpty ∧ fm2.isEmpty then
    match u.take 14 with
    | [] => []
    | a :: rest => a.toUpper :: rest
  else phrase.take 14

/-- A Python value passed to `simplify_forecast`: `None`, a string, or a
non-string value (for which `isinstance(forecast, str)` is false). -/
inductive PyVal
  | pyNone
  | str (s : PStr)
  | nonstr

/-- `simplify_forecast` (lines 1246-1360).  The guard
`if not forecast or not isinstance(forecast, str)` returns
`"No Forecast"` for `None`, the empty string and every non-string
value. -/
def simplify_forecast : PyVal → PStr
  | .str s =>
    if s.isEmpty then "No Forecast".data
    else simplify_after_sep (truncate_forecast s)
  | _ => "No Forecast".data

/-! ## Update finalize handler (src/main_app.py lines 281-335) -/

/-- The device filesystem, as a map from filename to file contents. -/
abbrev FileSys := PStr → Option PStr

/-- `os.remove(name)` (wrapped in `try/except: pass` at every use in
`finalize_handler`, so removal of a missing file is a no-op). -/
def fsRemove (name : PStr) (fs : FileSys) : FileSys :=
  fun k => if k = name then none else fs k

/-- Writing a file (the destination side of `os.rename`). -/
def fsWrite (name v : PStr) (fs : FileSys) : FileSys :=
  fun k => if k = name then some v else fs k

/-- Result of the finalize handler: the filesystem afterwards, whether the
HTTP response reported success (200) or failure (500), and whether the
handler rebooted the device (`finalize_handler` never calls
`machine.reset`; only the separate `/continue` handler does). -/
structure FinalizeRes where
  fs : FileSys
  ok : Bool
  reboots : Bool

/-- The checksum-validation loop (lines 291-306): the names of the
manifest entries that failed, in manifest order.  A file that cannot be
opened/read raises and is appended as failed; otherwise the digest of its
whole content (the chunked `sha.update` loop computes exactly that) is
compared with the manifest entry.  `hash` abstracts
`hashlib.sha256(...).hexdigest()`. -/
def checkFailed (hash : PStr → PStr) (fs : FileSys)
    (manifest : List (PStr × PStr)) : List PStr :=
  manifest.filterMap (fun e =>
    match fs e.1 with
    | none => some e.1
    | some content => if hash content ≠ e.2 then some e.1 else none)

/-- The staged-file suffix `".new"`. -/
def newSuffix : PStr := ".new".data

/-- The one staged file `finalize_handler` never renames (line 318). -/
def mainAppNew : PStr := "main_app.py.new".data

/-- The rename loop (lines 316-327): for each manifest filename ending in
`".new"` other than `"main_app.py.new"`, remove the live file
(`filename[:-4]`) and rename the staged file onto it; a raising
`os.rename` (source file missing) aborts the loop with a 500 response. -/
def applyRenames (fs : FileSys) : List PStr → FileSys × Bool
  | [] => (fs, true)
  | name :: rest =>
    if newSuffix.isSuffixOf name ∧ name ≠ mainAppNew then
      let final := name.take (name.length - 4)
      let fs1 := fsRemove final fs
      match fs1 name with
      | none => (fs1, false)
      | some v => applyRenames (fsRemove name (fsWrite final v fs1)) rest
    else applyRenames fs rest

/-- `finalize_handler` (lines 290-335): verify every manifest entry; on
any failure delete every file listed in the manifest and answer 500
without rebooting; otherwise apply the renames and answer 200 (still
without rebooting — the reboot happens only in the `/continue`
handler). -/
def finalize_handler (hash : PStr → PStr) (manifest : List (PStr × PStr))
    (fs : FileSys) : FinalizeRes :=
  let failed := checkFailed hash fs manifest
  if failed.isEmpty then
    let r := applyRenames fs (manifest.map Prod.fst)
    ⟨r.1, r.2, false⟩
  else
    ⟨manifest.foldl (fun f e => fsRemove e.1 f) fs, false, false⟩

/-! ## General lemmas about the rolling-buffer trim -/

/-- After a trim the buffer never exceeds the cap. -/
theorem pyTrim_length_le (cap : Nat) (b : PStr) : (pyTrim cap b).length ≤ cap := by
  unfold pyTrim
  split
  · simp only [List.length_drop]
    omega
  · omega

/-- The trim keeps a suffix of the buffer (the most recent bytes). -/
theorem pyTrim_suffix (cap : Nat) (b : PStr) : pyTrim cap b <:+ b := by
  unfold pyTrim
  split
  · exact List.drop_suffix _ _
  · exact List.suffix_refl b

/-- A buffer not exceeding the cap is left unchanged. -/
theorem pyTrim_of_le (cap : Nat) (b : PStr) (h : b.length ≤ cap) :
    pyTrim cap b = b := by
  unfold pyTrim
  split
  · omega
  · rfl

/-- When the buffer exceeds the cap, exactly the cap-sized suffix remains. -/
theorem pyTrim_length_of_gt (cap : Nat) (b : PStr) (h : b.length > cap) :
    (pyTrim cap b).length = cap := by
  unfold pyTrim
  split
  · simp only [List.length_drop]
    omega
  · omega

/-- C6 (counterexample): the claim says every stream-extraction variant
uses a 4096-byte buffer cap and 256-byte chunks, but the JSON-string
variant `extract_first_json_string_value_stream` uses a 1024-byte cap and
128-byte chunks (lines 849-851). -/
theorem C6_counterexample :
    ejs_max_buf = 1024 ∧ ejs_chunk = 128 ∧
    ejs_max_buf ≠ 4096 ∧ ejs_chunk ≠ 256 := by
  decide

/-- C6 (amended): `extract_first_number_stream_generic` and
`fetch_first_station_id` maintain 4096-byte-capped rolling buffers read in
256-byte chunks, while `extract_first_json_string_value_stream` uses a
1024-byte cap with 128-byte chunks; in every variant, whenever the buffer
exceeds its cap the trim discards the oldest bytes, retaining the most
recent cap-sized suffix, so after every trim step the buffer length is at
most that variant's cap. -/
theorem C6_theorem :
    (ensg_max_buf = 4096 ∧ ensg_chunk = 256) ∧
    (fsi_max_buf = 4096 ∧ fsi_chunk = 256) ∧
    (ejs_max_buf = 1024 ∧ ejs_chunk = 128) ∧
    (∀ (cap : Nat) (buf chunk : PStr),
      (pyTrim cap (buf ++ chunk)).length ≤ cap ∧
      pyTrim cap (buf ++ chunk) <:+ buf ++ chunk ∧
      ((buf ++ chunk).length > cap →
        (pyTrim cap (buf ++ chunk)).length = cap)) := by
  refine ⟨⟨rfl, rfl⟩, ⟨rfl, rfl⟩, ⟨rfl, rfl⟩, fun cap buf chunk => ⟨?_, ?_, ?_⟩⟩
  · exact pyTrim_length_le cap (buf ++ chunk)
  · exact pyTrim_suffix cap (buf ++ chunk)
  · exact pyTrim_length_of_gt cap (buf ++ chunk)

/-- Helper: the classifier body always returns at most 14 characters,
since both return paths truncate to 14. -/
theorem simplify_after_sep_length (t : PStr) :
    (simplify_after_sep t).length ≤ 14 := by
  simp only [simplify_after_sep]
  repeat' split
  all_goals
    first
    | (simp [List.length_take]; done)
    | (rename_i h
       have h2 := congrArg List.length h
       simp only [List.length_take, List.length_cons] at h2
       simp only [List.length_cons]
       omega)

/-- C3: for every input string — including the empty string and strings
with no recognizable modifier or condition phrase — the output of
`simplify_forecast` has length at most 14 characters. -/
theorem C3_theorem : ∀ s : PStr, (simplify_forecast (.str s)).length ≤ 14 := by
  intro s
  simp only [simplify_forecast]
  split
  · decide
  · exact simplify_after_sep_length _

/-- C10: `simplify_forecast` returns the fixed 11-character string
`"No Forecast"` when its input is `None`, the empty string, or not a
string at all, without applying the first-14-characters fallback. -/
theorem C10_theorem :
    simplify_forecast .pyNone = "No Forecast".data ∧
    simplify_forecast (.str []) = "No Forecast".data ∧
    simplify_forecast .nonstr = "No Forecast".data ∧
    ("No Forecast".data).length = 11 := by
  refine ⟨rfl, by decide, rfl, by decide⟩

/-! ## Rounding lemmas for C5 -/

/-- `pyRound` lands within 1/2 of its argument. -/
theorem pyRound_near (q : ℚ) : |(pyRound q : ℚ) - q| ≤ 1 / 2 := by
  simp only [pyRound]
  have h0 : (⌊q⌋ : ℚ) ≤ q := Int.floor_le q
  have h1 : q < ⌊q⌋ + 1 := Int.lt_floor_add_one q
  split
  · rename_i h
    rw [abs_le]
    exact ⟨by linarith, by linarith⟩
  · split
    · rename_i h h'
      rw [abs_le]
      push_cast
      exact ⟨by linarith, by linarith⟩
    · split
      · rename_i h h' hev
        rw [abs_le]
        exact ⟨by linarith, by linarith⟩
      · rename_i h h' hev
        rw [abs_le]
        push_cast
        exact ⟨by linarith, by linarith⟩

/-- At an exact half, `pyRound` rounds to the even neighbour. -/
theorem pyRound_tie_even (q : ℚ) (h : Int.fract q = 1 / 2) :
    Even (pyRound q) := by
  simp only [pyRound]
  unfold Int.fract at h
  split
  · rename_i h'
    exfalso
    rw [h] at h'
    norm_num at h'
  · split
    · rename_i h' h''
      exfalso
      rw [h] at h''
      norm_num at h''
    · split
      · assumption
      · rename_i h' h'' hev
        exact (Int.even_add_one).mpr hev

/-- C5 (counterexample): at the observable Celsius reading 2.5 (exactly
representable in binary floating point, so the modelled real arithmetic
matches the firmware's), `round(2.5 * 9 / 5 + 32) = round(36.5)` is 36
under Python's round-half-to-even, while the claimed
round-half-away-from-zero semantics would give 37. -/
theorem C5_counterexample :
    obs_temp_f (5 / 2) = 36 ∧
    roundHalfAwayFromZero ((5 / 2 : ℚ) * 9 / 5 + 32) = 37 ∧
    obs_temp_f (5 / 2) ≠ roundHalfAwayFromZero ((5 / 2 : ℚ) * 9 / 5 + 32) := by
  have hq : ((5 / 2 : ℚ) * 9 / 5 + 32) = 73 / 2 := by norm_num
  have hfl : ⌊(73 / 2 : ℚ)⌋ = 36 := by norm_num
  have h36 : obs_temp_f (5 / 2) = 36 := by
    simp only [obs_temp_f, pyRound, hq, hfl]
    norm_num
    exact ⟨18, by norm_num⟩
  have h37 : roundHalfAwayFromZero ((5 / 2 : ℚ) * 9 / 5 + 32) = 37 := by
    simp only [roundHalfAwayFromZero, hq]
    norm_num
  exact ⟨h36, h37, by rw [h36, h37]; decide⟩

/-- C5 (amended): the primary-path Fahrenheit display value is
`round(C * 9/5 + 32)` with round-to-nearest, ties-to-even semantics (the
semantics of Python's builtin `round`), not ties-away-from-zero: the
result is always within 1/2 of the exact value, an exact half rounds to
the even neighbour, and the spec's three boundary instances hold. -/
theorem C5_theorem : ∀ c : ℚ,
    |(obs_temp_f c : ℚ) - (c * 9 / 5 + 32)| ≤ 1 / 2 ∧
    (Int.fract (c * 9 / 5 + 32) = 1 / 2 → Even (obs_temp_f c)) ∧
    obs_temp_f 0 = 32 ∧ obs_temp_f 100 = 212 ∧ obs_temp_f (-40) = -40 := by
  intro c
  refine ⟨pyRound_near _, fun h => pyRound_tie_even _ h, ?_, ?_, ?_⟩
  · have hq : ((0 : ℚ) * 9 / 5 + 32) = 32 := by norm_num
    have hfl : ⌊(32 : ℚ)⌋ = 32 := by norm_num
    simp only [obs_temp_f, pyRound, hq, hfl]
    norm_num
  · have hq : ((100 : ℚ) * 9 / 5 + 32) = 212 := by norm_num
    have hfl : ⌊(212 : ℚ)⌋ = 212 := by norm_num
    simp only [obs_temp_f, pyRound, hq, hfl]
    norm_num
  · have hq : ((-40 : ℚ) * 9 / 5 + 32) = -40 := by norm_num
    have hfl : ⌊(-40 : ℚ)⌋ = -40 := by norm_num
    simp only [obs_temp_f, pyRound, hq, hfl]
    norm_num

/-- C5 (witness): the instance `C = 2.5` realizes the tie hypothesis of
the amended theorem; the rounded value 36 is even. -/
theorem C5_witness :
    Int.fract ((5 / 2 : ℚ) * 9 / 5 + 32) = 1 / 2 ∧ Even (obs_temp_f (5 / 2)) := by
  have hf : Int.fract ((5 / 2 : ℚ) * 9 / 5 + 32) = 1 / 2 := by
    have hq : ((5 / 2 : ℚ) * 9 / 5 + 32) = 73 / 2 := by norm_num
    rw [hq, Int.fract]
    norm_num
  exact ⟨hf, (C5_theorem (5 / 2)).2.1 hf⟩

/-- C2 (counterexample): a `points` document with an observation-stations
URL but no `forecast` and no `forecastHourly`/grid fields makes
`get_nws_metadata` return a metadata unit whose `forecast_url` and
`hourly_url` are both absent — only `station_id` is validated (lines
983-991), so the resolver can return a partially-populated unit. -/
theorem C2_counterexample :
    get_nws_metadata ⟨none, some "u".data, none, none, none, none⟩
        "\"id\":\"https://api.weather.gov/stations/KABC\"".data
      = some ⟨none, none, some "KABC".data⟩ ∧
    pyTruthy (MetaDict.forecast_url ⟨none, none, some "KABC".data⟩) = false := by
  exact ⟨by decide, rfl⟩

/-- C2 (amended): `get_nws_metadata` either reports failure by returning
`None`, or returns a unit whose `station_id` is present and non-empty;
the `forecast_url` and `hourly_url` fields of a returned unit may be
absent or empty, since only the station id is validated before the unit
is built. -/
theorem C2_theorem (props : PointProps) (stationBody : PStr) :
    get_nws_metadata props stationBody = none ∨
    ∃ m, get_nws_metadata props stationBody = some m ∧
      pyTruthy m.station_id = true := by
  unfold get_nws_metadata
  split
  · exact Or.inl rfl
  · split
    · exact Or.inl rfl
    · split
      · exact Or.inl rfl
      · rename_i hh
        exact Or.inr ⟨_, rfl, by simp [pyTruthy]; simpa using hh⟩

/-- C4: when the primary observation stream yields no temperature but the
hourly fallback stream yields a numeric Fahrenheit value `v`, the produced
temperature is `round(v)`, not the sentinel; only when the fallback also
fails is the temperature field set to the sentinel 0 (and likewise the
humidity field). -/
theorem C4_theorem (md : MetaDict) (ph fbH : Option ℚ) (fdoc : Option PStr)
    (v : ℚ)
    (h1 : pyTruthy md.station_id = true) (h2 : pyTruthy md.forecast_url = true)
    (h3 : pyTruthy md.hourly_url = true) :
    (get_weather_data md ⟨none, ph, some v, fbH, fdoc⟩).map Prod.fst
      = some (pyRound v) ∧
    (get_weather_data md ⟨none, ph, none, fbH, fdoc⟩).map Prod.fst
      = some 0 ∧
    (get_weather_data md ⟨none, ph, none, none, none⟩).map
        (fun r => r.2.1) = some 0 := by
  refine ⟨?_, ?_, ?_⟩ <;> simp [get_weather_data, h1, h2, h3]

/-- C4 (witness): with complete metadata, a primary stream with no
temperature and a fallback stream reading 71°F, the produced temperature
is `round(71) = 71`, not 0. -/
theorem C4_witness :
    pyTruthy (some "KABC".data) = true ∧
    (get_weather_data ⟨some "f".data, some "h".data, some "KABC".data⟩
        ⟨none, none, some 71, none, none⟩).map Prod.fst = some (pyRound 71) ∧
    pyRound (71 : ℚ) = 71 := by
  refine ⟨rfl, (C4_theorem ⟨some "f".data, some "h".data, some "KABC".data⟩
    none none none 71 rfl rfl rfl).1, ?_⟩
  have hfl : ⌊(71 : ℚ)⌋ = 71 := by norm_num
  simp only [pyRound, hfl]
  norm_num

/-- C9 (counterexample): when the temperature extraction finds nothing in
the primary observation stream, the endpoint is streamed only once — the
humidity request is never issued (lines 1090-1095) — so the trace is a
single open/close pair, not two. -/
theorem C9_counterexample :
    observation_requests (fun _ => none) (fun _ => none) (fun _ => some 0)
        "x".data
      = (none, none, [.openReq, .closeReq]) ∧
    [ReqEvent.openReq, .closeReq]
      ≠ [.openReq, .closeReq, .openReq, .closeReq] := by
  exact ⟨by decide, by decide⟩

/-- C9 (amended): the latest-observation endpoint is streamed once for
temperature and, only if the temperature extraction succeeded, a second
time with a fresh request for humidity; each request is opened and closed
before the next is started (the trace is always well nested), and when
the temperature extraction fails no second request is made and no
primary humidity is produced. -/
theorem C9_theorem (progT progH : PStr → Option PStr)
    (toFloat : PStr → Option ℚ) (obsBody : PStr) :
    ((observation_requests progT progH toFloat obsBody).1.isSome = true →
      (observation_requests progT progH toFloat obsBody).2.2
        = [.openReq, .closeReq, .openReq, .closeReq]) ∧
    ((observation_requests progT progH toFloat obsBody).1 = none →
      (observation_requests progT progH toFloat obsBody).2.2
        = [.openReq, .closeReq] ∧
      (observation_requests progT progH toFloat obsBody).2.1 = none) ∧
    wellNested false (observation_requests progT progH toFloat obsBody).2.2
      = true := by
  unfold observation_requests
  cases extract_first_number_stream_generic progT toFloat obsBody with
  | some v => exact ⟨fun _ => rfl, by simp, rfl⟩
  | none => exact ⟨by simp, fun _ => ⟨rfl, rfl⟩, rfl⟩

/-- C9 (witness): a primary stream whose temperature extraction succeeds
realizes the two-request trace. -/
theorem C9_witness :
    (observation_requests
        (fun b => if "7".data.isPrefixOf b then some "7".data else none)
        (fun _ => none) (fun _ => some 7) "7".data).1.isSome = true ∧
    (observation_requests
        (fun b => if "7".data.isPrefixOf b then some "7".data else none)
        (fun _ => none) (fun _ => some 7) "7".data).2.2
      = [.openReq, .closeReq, .openReq, .closeReq] := by
  refine ⟨by decide, (C9_theorem
    (fun b => if "7".data.isPrefixOf b then some "7".data else none)
    (fun _ => none) (fun _ => some 7) "7".data).1 (by decide)⟩

/-- Helper for C7: if the pattern matches no infix of the stream, the
extraction loop returns `none` from any reachable state (a buffer that is
a suffix of the part of the stream read so far). -/
theorem ensg_loop_none (prog : PStr → Option PStr) (toFloat : PStr → Option ℚ)
    (stream : PStr)
    (h : ∀ pre b suf : PStr, pre ++ b ++ suf = stream → prog b = none) :
    ∀ fuel k buf, (∃ w, w ++ buf = stream.take k) →
      ensg_loop prog toFloat fuel buf (stream.drop k) = none := by
  intro fuel
  induction fuel with
  | zero => intro k buf _; rfl
  | succ n ih =>
    intro k buf hbuf
    obtain ⟨w, hw⟩ := hbuf
    rw [ensg_loop]
    by_cases hc : ((stream.drop k).take ensg_chunk).isEmpty
    · simp only [hc]
      rfl
    · simp only [hc]
      obtain ⟨w2, hw2⟩ := pyTrim_suffix ensg_max_buf
        (buf ++ (stream.drop k).take ensg_chunk)
      have hsplit : (w ++ w2)
          ++ pyTrim ensg_max_buf (buf ++ (stream.drop k).take ensg_chunk)
          ++ stream.drop (k + ensg_chunk) = stream := by
        rw [List.append_assoc w w2 _, hw2, ← List.append_assoc w buf _, hw,
          ← List.take_add]
        exact List.take_append_drop _ stream
      have hprog := h _ _ _ hsplit
      rw [hprog]
      have hdd : (stream.drop k).drop ensg_chunk = stream.drop (k + ensg_chunk) :=
        List.drop_drop ensg_chunk k stream
      rw [hdd]
      apply ih (k + ensg_chunk)
      refine ⟨w ++ w2, ?_⟩
      rw [List.append_assoc w w2 _, hw2, ← List.append_assoc w buf _, hw,
        ← List.take_add]

/-- C7: for every finite byte stream in which the pattern never matches —
including the empty stream — `extract_first_number_stream_generic`
consumes the whole stream and returns `none` ("not found"); being a total
function of the stream, it terminates, and no exception path exists
(`float()` is never reached without a match). -/
theorem C7_theorem (prog : PStr → Option PStr) (toFloat : PStr → Option ℚ)
    (stream : PStr)
    (h : ∀ pre b suf : PStr, pre ++ b ++ suf = stream → prog b = none) :
    extract_first_number_stream_generic prog toFloat stream = none := by
  unfold extract_first_number_stream_generic
  have hz := ensg_loop_none prog toFloat stream h (stream.length + 1) 0 []
    ⟨[], by simp⟩
  simpa using hz

/-- C7 (witness): a pattern matching only buffers containing `'q'` never
matches in the stream `"abc"`, so the extractor returns `none` on it. -/
theorem C7_witness :
    extract_first_number_stream_generic
      (fun b => if 'q' ∈ b then some b else none) (fun _ => some 0) "abc".data
      = none := by
  apply C7_theorem
  intro pre b suf hsplit
  simp only [ite_eq_right_iff]
  intro hq
  have hmem : 'q' ∈ "abc".data := by
    rw [← hsplit]
    simp [hq]
  simp at hmem

/-! ## Lemmas about the finalize handler, for C1 -/

/-- The failure-branch deletion loop removes exactly the manifest files. -/
theorem foldl_fsRemove_lookup (manifest : List (PStr × PStr)) :
    ∀ (fs : FileSys) (k : PStr),
      (manifest.foldl (fun f e => fsRemove e.1 f) fs) k
        = if k ∈ manifest.map Prod.fst then none else fs k := by
  induction manifest with
  | nil => intro fs k; simp
  | cons e rest ih =>
    intro fs k
    simp only [List.foldl_cons, List.map_cons, List.mem_cons]
    rw [ih]
    by_cases hk : k ∈ rest.map Prod.fst
    · simp [hk]
    · by_cases he : k = e.1
      · simp [hk, he, fsRemove]
      · simp [hk, he, fsRemove]

/-- A filename ending in `".new"` is its base name plus the suffix. -/
theorem newSuffix_split (n : PStr) (h : newSuffix.isSuffixOf n = true) :
    n.take (n.length - 4) ++ newSuffix = n := by
  rw [List.isSuffixOf_iff_suffix] at h
  obtain ⟨w, hw⟩ := h
  have hlen : n.length = w.length + 4 := by
    rw [← hw]
    simp [newSuffix]
  have htake : n.take (n.length - 4) = w := by
    rw [← hw]
    have hl4 : (w ++ newSuffix).length - 4 = w.length := by simp [newSuffix]
    rw [hl4]
    simp
  rw [htake, hw]

/-- The base name of a `".new"` file is strictly shorter, hence distinct. -/
theorem newSuffix_base_ne (n : PStr) (h : newSuffix.isSuffixOf n = true) :
    n.take (n.length - 4) ≠ n := by
  intro hcontra
  have := newSuffix_split n h
  rw [hcontra] at this
  have hlen := congrArg List.length this
  simp [newSuffix] at hlen

/-- Base names determine `".new"` names. -/
theorem newSuffix_base_inj (n m : PStr) (hn : newSuffix.isSuffixOf n = true)
    (hm : newSuffix.isSuffixOf m = true)
    (h : n.take (n.length - 4) = m.take (m.length - 4)) : n = m := by
  have h1 := newSuffix_split n hn
  have h2 := newSuffix_split m hm
  rw [← h1, ← h2, h]

/-- Step equation of the rename loop: a staged `".new"` file (other than
`main_app.py.new`) that exists is renamed and the loop continues. -/
theorem applyRenames_cons_pos (fs : FileSys) (e : PStr) (rest : List PStr)
    (hends : newSuffix.isSuffixOf e = true) (hmain : e ≠ mainAppNew)
    (v : PStr) (hv : fs e = some v) :
    applyRenames fs (e :: rest)
      = applyRenames (fsRemove e (fsWrite (e.take (e.length - 4)) v
          (fsRemove (e.take (e.length - 4)) fs))) rest := by
  have hfse : fsRemove (e.take (e.length - 4)) fs e = some v := by
    unfold fsRemove
    rw [if_neg (fun hh => (newSuffix_base_ne e hends) hh.symm), hv]
  show (if newSuffix.isSuffixOf e = true ∧ e ≠ mainAppNew then
      match fsRemove (e.take (e.length - 4)) fs e with
      | none => (fsRemove (e.take (e.length - 4)) fs, false)
      | some v => applyRenames (fsRemove e (fsWrite (e.take (e.length - 4)) v
          (fsRemove (e.take (e.length - 4)) fs))) rest
    else applyRenames fs rest) = _
  rw [if_pos ⟨hends, hmain⟩, hfse]

/-- Step equation of the rename loop: a non-`".new"` name or
`main_app.py.new` is skipped. -/
theorem applyRenames_cons_neg (fs : FileSys) (e : PStr) (rest : List PStr)
    (h : ¬(newSuffix.isSuffixOf e = true ∧ e ≠ mainAppNew)) :
    applyRenames fs (e :: rest) = applyRenames fs rest := by
  show (if newSuffix.isSuffixOf e = true ∧ e ≠ mainAppNew then
      match fsRemove (e.take (e.length - 4)) fs e with
      | none => (fsRemove (e.take (e.length - 4)) fs, false)
      | some v => applyRenames (fsRemove e (fsWrite (e.take (e.length - 4)) v
          (fsRemove (e.take (e.length - 4)) fs))) rest
    else applyRenames fs rest) = _
  rw [if_neg h]

/-- Lookup through one rename step, away from the two touched names. -/
theorem renameStep_lookup_other (fs : FileSys) (e v k : PStr)
    (hk1 : k ≠ e) (hk2 : k ≠ e.take (e.length - 4)) :
    fsRemove e (fsWrite (e.take (e.length - 4)) v
      (fsRemove (e.take (e.length - 4)) fs)) k = fs k := by
  simp [fsRemove, fsWrite, hk1, hk2]

/-- Lookup of the rename target after one rename step. -/
theorem renameStep_lookup_base (fs : FileSys) (e v : PStr)
    (hends : newSuffix.isSuffixOf e = true) :
    fsRemove e (fsWrite (e.take (e.length - 4)) v
      (fsRemove (e.take (e.length - 4)) fs)) (e.take (e.length - 4)) = some v := by
  have hne : e.take (e.length - 4) ≠ e := newSuffix_base_ne e hends
  simp [fsRemove, fsWrite, hne]

/-- Lookup of the rename source after one rename step. -/
theorem renameStep_lookup_src (fs : FileSys) (e v : PStr) :
    fsRemove e (fsWrite (e.take (e.length - 4)) v
      (fsRemove (e.take (e.length - 4)) fs)) e = none := by
  simp [fsRemove]

/-- Behaviour of the rename loop on a manifest of distinct names none of
whose base names are themselves listed, when every relevant staged file
exists: it succeeds, renames every eligible staged file onto its base
name, and leaves every other file untouched. -/
theorem applyRenames_spec :
    ∀ (names : List PStr) (fs : FileSys),
      names.Nodup →
      (∀ n ∈ names, n.take (n.length - 4) ∉ names) →
      (∀ n ∈ names, newSuffix.isSuffixOf n = true → n ≠ mainAppNew →
        (fs n).isSome = true) →
      (applyRenames fs names).2 = true ∧
      (∀ n ∈ names, newSuffix.isSuffixOf n = true → n ≠ mainAppNew →
        (applyRenames fs names).1 (n.take (n.length - 4)) = fs n ∧
        (applyRenames fs names).1 n = none) ∧
      (∀ k, (∀ n ∈ names, newSuffix.isSuffixOf n = true → n ≠ mainAppNew →
          n ≠ k ∧ n.take (n.length - 4) ≠ k) →
        (applyRenames fs names).1 k = fs k) := by
  intro names
  induction names with
  | nil =>
    intro fs _ _ _
    exact ⟨rfl, by simp, fun k _ => rfl⟩
  | cons e rest ih =>
    intro fs hnd hchain hsome
    have hndr : rest.Nodup := (List.nodup_cons.mp hnd).2
    have hnotmem : e ∉ rest := (List.nodup_cons.mp hnd).1
    by_cases hcase : newSuffix.isSuffixOf e = true ∧ e ≠ mainAppNew
    · -- e is renamed
      obtain ⟨hends, hmain⟩ := hcase
      obtain ⟨v, hv⟩ := Option.isSome_iff_exists.mp
        (hsome e (List.mem_cons_self e rest) hends hmain)
      rw [applyRenames_cons_pos fs e rest hends hmain v hv]
      have hbase_notin : e.take (e.length - 4) ∉ rest := fun hmem =>
        (hchain e (List.mem_cons_self e rest)) (List.mem_cons_of_mem e hmem)
      have hchainr : ∀ n ∈ rest, n.take (n.length - 4) ∉ rest := fun n hn hmem =>
        (hchain n (List.mem_cons_of_mem e hn)) (List.mem_cons_of_mem e hmem)
      have hfs2 : ∀ n ∈ rest,
          fsRemove e (fsWrite (e.take (e.length - 4)) v
            (fsRemove (e.take (e.length - 4)) fs)) n = fs n := by
        intro n hn
        apply renameStep_lookup_other
        · exact fun hne => hnotmem (hne ▸ hn)
        · exact fun hne => hbase_notin (hne ▸ hn)
      have hsomer : ∀ n ∈ rest, newSuffix.isSuffixOf n = true →
          n ≠ mainAppNew →
          ((fsRemove e (fsWrite (e.take (e.length - 4)) v
            (fsRemove (e.take (e.length - 4)) fs))) n).isSome = true := by
        intro n hn hnends hnmain
        rw [hfs2 n hn]
        exact hsome n (List.mem_cons_of_mem e hn) hnends hnmain
      obtain ⟨ihok, ihfile, ihother⟩ := ih _ hndr hchainr hsomer
      refine ⟨ihok, ?_, ?_⟩
      · intro n hn hnends hnmain
        rcases List.mem_cons.mp hn with hne | hnr
        · subst hne
          constructor
          · rw [ihother (n.take (n.length - 4)) ?_]
            · exact (renameStep_lookup_base fs n v hnends).trans hv.symm
            · intro m hm hmends hmmain
              refine ⟨fun hcon => hbase_notin (hcon ▸ hm), fun hcon => ?_⟩
              exact hnotmem ((newSuffix_base_inj m n hmends hnends hcon) ▸ hm)
          · rw [ihother n ?_]
            · exact renameStep_lookup_src fs n v
            · intro m hm hmends hmmain
              refine ⟨fun hcon => hnotmem (hcon ▸ hm), fun hcon => ?_⟩
              exact (hchain m (List.mem_cons_of_mem n hm))
                (hcon ▸ List.mem_cons_self n rest)
        · have := ihfile n hnr hnends hnmain
          rw [hfs2 n hnr] at this
          exact this
      · intro k hk
        obtain ⟨hke, hkbase⟩ := hk e (List.mem_cons_self e rest) hends hmain
        rw [ihother k ?_]
        · exact renameStep_lookup_other fs e v k (Ne.symm hke) (Ne.symm hkbase)
        · intro m hm hmends hmmain
          exact hk m (List.mem_cons_of_mem e hm) hmends hmmain
    · -- e is skipped
      rw [applyRenames_cons_neg fs e rest hcase]
      have hchainr : ∀ n ∈ rest, n.take (n.length - 4) ∉ rest := fun n hn hmem =>
        (hchain n (List.mem_cons_of_mem e hn)) (List.mem_cons_of_mem e hmem)
      have hsomer : ∀ n ∈ rest, newSuffix.isSuffixOf n = true →
          n ≠ mainAppNew → (fs n).isSome = true := fun n hn hnends hnmain =>
        hsome n (List.mem_cons_of_mem e hn) hnends hnmain
      obtain ⟨ihok, ihfile, ihother⟩ := ih fs hndr hchainr hsomer
      refine ⟨ihok, ?_, ?_⟩
      · intro n hn hnends hnmain
        rcases List.mem_cons.mp hn with hne | hnr
        · exact absurd ⟨hne ▸ hnends, hne ▸ hnmain⟩ hcase
        · exact ihfile n hnr hnends hnmain
      · intro k hk
        exact ihother k (fun m hm hmends hmmain =>
          hk m (List.mem_cons_of_mem e hm) hmends hmmain)

/-- When verification passed, every manifest file was readable. -/
theorem checkFailed_nil_isSome (hash : PStr → PStr) (fs : FileSys)
    (manifest : List (PStr × PStr)) (h : checkFailed hash fs manifest = [])
    (n : PStr) (hn : n ∈ manifest.map Prod.fst) : (fs n).isSome = true := by
  obtain ⟨e, he, rfl⟩ := List.mem_map.mp hn
  have hnone := List.filterMap_eq_nil_iff.mp h e he
  cases hfs : fs e.1 with
  | none => rw [hfs] at hnone; simp at hnone
  | some c => simp [hfs]

/-- C1 (counterexample): a manifest listing only `main_app.py.new`, whose
digest matches, makes `finalize_handler` answer success while renaming
nothing: the staged file stays staged and the live `main_app.py` keeps its
old contents (line 318 excludes `main_app.py.new` from the rename loop),
so the claim that every matching staged `.new` file is renamed into place
fails.  The abstract digest is instantiated with the identity function. -/
theorem C1_counterexample :
    (finalize_handler id [("main_app.py.new".data, "X".data)]
      (fun k => if k = "main_app.py.new".data then some "X".data
        else if k = "main_app.py".data then some "OLD".data else none)).ok
      = true ∧
    (finalize_handler id [("main_app.py.new".data, "X".data)]
      (fun k => if k = "main_app.py.new".data then some "X".data
        else if k = "main_app.py".data then some "OLD".data else none)).fs
        "main_app.py".data = some "OLD".data ∧
    (finalize_handler id [("main_app.py.new".data, "X".data)]
      (fun k => if k = "main_app.py.new".data then some "X".data
        else if k = "main_app.py".data then some "OLD".data else none)).fs
        "main_app.py.new".data = some "X".data := by
  refine ⟨by decide, by decide, by decide⟩

/-- C1 (amended): `finalize_handler` recomputes the digest of every listed
file; on any mismatch or unreadable file it reports failure without
rebooting, deletes every file listed in the manifest and touches nothing
else (in particular no rename happens).  Only when every file matches are
renames applied, and then each staged `".new"` file except
`"main_app.py.new"` is renamed onto its base name (removing the old live
file first); `"main_app.py.new"` itself is never renamed, so the live
`"main_app.py"` is left untouched.  The success-path statements assume the
manifest filenames are distinct (they are dict keys in the source) and
that no listed name is the rename target of another. -/
theorem C1_theorem (hash : PStr → PStr) (manifest : List (PStr × PStr))
    (fs : FileSys) :
    (finalize_handler hash manifest fs).reboots = false ∧
    (checkFailed hash fs manifest ≠ [] →
      (finalize_handler hash manifest fs).ok = false ∧
      (∀ n ∈ manifest.map Prod.fst,
        (finalize_handler hash manifest fs).fs n = none) ∧
      (∀ k, k ∉ manifest.map Prod.fst →
        (finalize_handler hash manifest fs).fs k = fs k)) ∧
    (checkFailed hash fs manifest = [] →
      (manifest.map Prod.fst).Nodup →
      (∀ n ∈ manifest.map Prod.fst,
        n.take (n.length - 4) ∉ manifest.map Prod.fst) →
      (finalize_handler hash manifest fs).ok = true ∧
      (∀ n ∈ manifest.map Prod.fst, newSuffix.isSuffixOf n = true →
        n ≠ mainAppNew →
        (finalize_handler hash manifest fs).fs (n.take (n.length - 4)) = fs n ∧
        (finalize_handler hash manifest fs).fs n = none) ∧
      (finalize_handler hash manifest fs).fs "main_app.py".data
        = fs "main_app.py".data ∧
      (mainAppNew ∈ manifest.map Prod.fst →
        (finalize_handler hash manifest fs).fs mainAppNew = fs mainAppNew)) := by
  refine ⟨?_, ?_, ?_⟩
  · simp only [finalize_handler]
    split <;> rfl
  · intro hne
    have hf : (checkFailed hash fs manifest).isEmpty = false := by
      cases hcf : checkFailed hash fs manifest with
      | nil => exact absurd hcf hne
      | cons a t => rfl
    have hred : finalize_handler hash manifest fs
        = ⟨manifest.foldl (fun f e => fsRemove e.1 f) fs, false, false⟩ := by
      simp only [finalize_handler, hf, Bool.false_eq_true, if_false]
    refine ⟨by rw [hred], ?_, ?_⟩
    · intro n hn
      rw [hred]
      show (manifest.foldl (fun f e => fsRemove e.1 f) fs) n = none
      rw [foldl_fsRemove_lookup manifest fs n, if_pos hn]
    · intro k hk
      rw [hred]
      show (manifest.foldl (fun f e => fsRemove e.1 f) fs) k = fs k
      rw [foldl_fsRemove_lookup manifest fs k, if_neg hk]
  · intro h0 hnd hchain
    have hsome : ∀ n ∈ manifest.map Prod.fst, newSuffix.isSuffixOf n = true →
        n ≠ mainAppNew → (fs n).isSome = true := fun n hn _ _ =>
      checkFailed_nil_isSome hash fs manifest h0 n hn
    obtain ⟨hok, hfile, hother⟩ :=
      applyRenames_spec (manifest.map Prod.fst) fs hnd hchain hsome
    have hred : finalize_handler hash manifest fs
        = ⟨(applyRenames fs (manifest.map Prod.fst)).1,
           (applyRenames fs (manifest.map Prod.fst)).2, false⟩ := by
      have ht : (checkFailed hash fs manifest).isEmpty = true := by
        rw [h0]; rfl
      simp only [finalize_handler, ht, if_true]
    refine ⟨by rw [hred]; exact hok, ?_, ?_, ?_⟩
    · intro n hn hends hnmain
      rw [hred]
      exact hfile n hn hends hnmain
    · rw [hred]
      apply hother
      intro n hn hends hnmain
      constructor
      · intro hcon
        exact absurd (hcon ▸ hends) (by decide)
      · intro hcon
        have hsplit := newSuffix_split n hends
        rw [hcon] at hsplit
        have hm : mainAppNew = "main_app.py".data ++ newSuffix := by decide
        exact hnmain (hsplit.symm.trans hm.symm)
    · intro hmem
      rw [hred]
      apply hother
      intro n hn hends hnmain
      refine ⟨hnmain, fun hcon => ?_⟩
      exact (hchain n hn) (hcon ▸ hmem)

/-- C1 (witness): a one-file manifest whose digest matches, on a
filesystem holding the staged file and an old live version: finalize
succeeds, the staged `app.py.new` is renamed onto `app.py`, and the
staged name is gone. -/
theorem C1_witness :
    (finalize_handler id [("app.py.new".data, "A".data)]
      (fun k => if k = "app.py.new".data then some "A".data
        else if k = "app.py".data then some "oldA".data else none)).ok
      = true ∧
    (finalize_handler id [("app.py.new".data, "A".data)]
      (fun k => if k = "app.py.new".data then some "A".data
        else if k = "app.py".data then some "oldA".data else none)).fs
        "app.py".data = some "A".data ∧
    (finalize_handler id [("app.py.new".data, "A".data)]
      (fun k => if k = "app.py.new".data then some "A".data
        else if k = "app.py".data then some "oldA".data else none)).fs
        "app.py.new".data = none := by
  have h := (C1_theorem id [("app.py.new".data, "A".data)]
    (fun k => if k = "app.py.new".data then some "A".data
      else if k = "app.py".data then some "oldA".data else none)).2.2
    (by decide) (by decide) (by decide)
  have hfile := h.2.1 "app.py.new".data (by decide) (by decide) (by decide)
  exact ⟨h.1, hfile.1, hfile.2⟩

/-! ## Lemmas about the classifier's condition selection, for C8 -/

/-- Pairwise transport through `filterMap`. -/
theorem pairwise_filterMap_of {α β : Type} (R : β → β → Prop)
    (f : α → Option β) :
    ∀ (l : List α),
      l.Pairwise (fun a b => ∀ x y, f a = some x → f b = some y → R x y) →
      (l.filterMap f).Pairwise R := by
  intro l
  induction l with
  | nil => intro _; simp
  | cons a t ih =>
    intro h
    obtain ⟨ha, ht⟩ := List.pairwise_cons.mp h
    cases hf : f a with
    | none =>
      rw [show (a :: t).filterMap f = t.filterMap f by
        simp [List.filterMap_cons, hf]]
      exact ih ht
    | some b =>
      rw [show (a :: t).filterMap f = b :: t.filterMap f by
        simp [List.filterMap_cons, hf]]
      refine List.pairwise_cons.mpr ⟨?_, ih ht⟩
      intro y hy
      obtain ⟨c, hc, hcy⟩ := List.mem_filterMap.mp hy
      exact ha c hc b y hf hcy

/-- In a duplicate-free list, earlier elements have smaller indices. -/
theorem nodup_pairwise_indexOf {α : Type} [BEq α] [LawfulBEq α] :
    ∀ (L : List α), L.Nodup →
      L.Pairwise (fun a b => L.indexOf a < L.indexOf b) := by
  intro L
  induction L with
  | nil => intro _; simp
  | cons c rest ih =>
    intro hnd
    obtain ⟨hc, hr⟩ := List.nodup_cons.mp hnd
    refine List.pairwise_cons.mpr ⟨?_, ?_⟩
    · intro b hb
      have hcb : (c == b) = false := by
        rw [beq_eq_false_iff_ne]
        exact fun h => hc (h ▸ hb)
      rw [List.indexOf_cons, List.indexOf_cons, beq_self_eq_true, hcb]
      simp only [cond_true, cond_false]
      omega
    · refine List.Pairwise.imp_of_mem ?_ (ih hr)
      intro a b ha hb hab
      have hca : (c == a) = false := by
        rw [beq_eq_false_iff_ne]
        exact fun h => hc (h ▸ ha)
      have hcb : (c == b) = false := by
        rw [beq_eq_false_iff_ne]
        exact fun h => hc (h ▸ hb)
      rw [List.indexOf_cons, List.indexOf_cons, hca, hcb]
      simp only [cond_false]
      omega

/-- The head of a `filterMap` is the image of the first element mapped to
`some`. -/
theorem head?_filterMap {α β : Type} (f : α → Option β) :
    ∀ l : List α,
      (l.filterMap f).head? = (l.find? (fun a => (f a).isSome)).bind f := by
  intro l
  induction l with
  | nil => simp
  | cons a t ih =>
    cases hf : f a with
    | none =>
      rw [show (a :: t).filterMap f = t.filterMap f by
        simp [List.filterMap_cons, hf]]
      rw [List.find?_cons_of_neg t (by simp [hf])]
      exact ih
    | some b =>
      rw [show (a :: t).filterMap f = b :: t.filterMap f by
        simp [List.filterMap_cons, hf]]
      rw [List.find?_cons_of_pos t (by simp [hf])]
      simp [hf]

/-- `find?` only depends on the predicate's values on the list. -/
theorem find?_congr_mem {α : Type} (p q : α → Bool) :
    ∀ l : List α, (∀ a ∈ l, p a = q a) → l.find? p = l.find? q := by
  intro l
  induction l with
  | nil => intro _; rfl
  | cons a t ih =>
    intro h
    have ha := h a (List.mem_cons_self a t)
    cases hp : p a with
    | false =>
      rw [List.find?_cons_of_neg t (by simp [hp]),
        List.find?_cons_of_neg t (by simp [← ha, hp])]
      exact ih (fun b hb => h b (List.mem_cons_of_mem a hb))
    | true =>
      rw [List.find?_cons_of_pos t (by simp [hp]),
        List.find?_cons_of_pos t (by simp [← ha, hp])]

/-- `priority_found_conditions` as a single pass over `CONDITIONS`. -/
theorem priority_eq (u : PStr) :
    priority_found_conditions u = CONDITIONS.filterMap (condTag u) := by
  unfold priority_found_conditions found_conditions condTag
  exact List.filterMap_filterMap _ _ _

/-- Shape of a built entry: its index component is the condition's index
in `CONDITIONS` and its last component is the condition itself. -/
theorem condTag_some (u c : PStr) (t : Nat × Nat × PStr)
    (h : condTag u c = some t) :
    t.1 = CONDITIONS.indexOf c ∧ t.2.2 = c := by
  unfold condTag at h
  cases hp : pyFind u (pyLower c) with
  | none => rw [hp] at h; simp at h
  | some p =>
    rw [hp] at h
    have h2 : (if c ∈ CONDITIONS then
        some (CONDITIONS.indexOf c, p, c) else none) = some t := h
    split at h2
    · cases h2
      exact ⟨rfl, rfl⟩
    · cases h2

/-- An entry is built exactly when the condition occurs in the text. -/
theorem condTag_isSome (u c : PStr) (hc : c ∈ CONDITIONS) :
    (condTag u c).isSome = (pyFind u (pyLower c)).isSome := by
  unfold condTag
  cases hp : pyFind u (pyLower c) with
  | none => simp
  | some p => simp [hc]

/-- The tuple list sorted by the source is already sorted: its index
components strictly increase along `CONDITIONS`. -/
theorem priority_sorted (u : PStr) :
    (priority_found_conditions u).Pairwise tripLe := by
  rw [priority_eq]
  apply pairwise_filterMap_of
  have hnd : CONDITIONS.Nodup := by decide
  refine (nodup_pairwise_indexOf CONDITIONS hnd).imp ?_
  intro a b hab x y hx hy
  obtain ⟨hx1, _⟩ := condTag_some u a x hx
  obtain ⟨hy1, _⟩ := condTag_some u b y hy
  unfold tripLe
  rw [if_pos (by rw [hx1, hy1]; exact hab)]
  trivial

/-- The condition the classifier selects is the first condition in
`CONDITIONS` order (lowest severity index) occurring anywhere in the
text: the sort leaves the already-index-sorted entry list unchanged, so
its head is the lowest-index entry. -/
theorem found_condition_eq (u : PStr) :
    found_condition u
      = (CONDITIONS.find? (fun c => (pyFind u (pyLower c)).isSome)).getD [] := by
  unfold found_condition
  rw [List.Sorted.insertionSort_eq (priority_sorted u)]
  have hh := head?_filterMap (condTag u) CONDITIONS
  rw [find?_congr_mem _ (fun c => (pyFind u (pyLower c)).isSome) CONDITIONS
    (fun c hc => condTag_isSome u c hc)] at hh
  rw [priority_eq]
  cases hfind : CONDITIONS.find? (fun c => (pyFind u (pyLower c)).isSome) with
  | none =>
    rw [hfind] at hh
    have hnil := List.head?_eq_none_iff.mp hh
    rw [hnil]
    rfl
  | some c =>
    rw [hfind] at hh
    rw [show (some c).bind (condTag u) = condTag u c from rfl] at hh
    have hcmem := List.mem_of_find?_eq_some hfind
    have hcsome := List.find?_some hfind
    obtain ⟨p, hp⟩ := Option.isSome_iff_exists.mp hcsome
    have htag : condTag u c = some (CONDITIONS.indexOf c, p, c) := by
      unfold condTag
      rw [hp]
      simp [hcmem]
    rw [htag] at hh
    cases hfm : CONDITIONS.filterMap (condTag u) with
    | nil => rw [hfm] at hh; cases hh
    | cons hd tl =>
      rw [hfm] at hh
      have hhd : hd = (CONDITIONS.indexOf c, p, c) := by
        injection hh
      rw [hhd]
      rfl

/-- The selected modifier, when one was found, comes from `MODIFIERS`. -/
theorem found_modifier_mem (u : PStr) (h : found_modifiers u ≠ []) :
    found_modifier u ∈ MODIFIERS := by
  cases hsort : List.insertionSort posLe (found_modifiers u) with
  | nil =>
    exfalso
    have hperm := List.perm_insertionSort posLe (found_modifiers u)
    rw [hsort] at hperm
    exact h hperm.symm.eq_nil
  | cons hd tl =>
    have hfm : found_modifier u = hd.2 := by
      unfold found_modifier
      rw [hsort]
    have hmem : hd ∈ List.insertionSort posLe (found_modifiers u) := by
      rw [hsort]
      exact List.mem_cons_self hd tl
    have hmem2 : hd ∈ found_modifiers u :=
      (List.perm_insertionSort posLe (found_modifiers u)).mem_iff.mp hmem
    obtain ⟨m, hmm, hms⟩ := List.mem_filterMap.mp hmem2
    cases hp : pyFind u (pyLower m) with
    | none => rw [hp] at hms; cases hms
    | some p =>
      rw [hp] at hms
      have h2 : some (p, m) = some hd := hms
      rw [hfm, ← Option.some.inj h2]
      exact hmm

/-- C8 (counterexample): `"Thunderstorm Rain"` contains both phrases; the
classifier selects the condition `"Thunderstorm"` (severity order), but
because no modifier phrase is present the `"Thunderstorms" → "Tstorms"`
length rule (inside the modifier branch, lines 1306-1347) is never
applied: the output is `"Thunderstorm"`, which does not contain
`"Tstorms"`. -/
theorem C8_counterexample :
    simplify_forecast (.str "Thunderstorm Rain".data) = "Thunderstorm".data ∧
    pyContains (simplify_forecast (.str "Thunderstorm Rain".data))
      "Tstorms".data = false ∧
    pyContains (simplify_forecast (.str "Thunderstorm Rain".data))
      "Rain".data = false := by
  refine ⟨by decide, by decide, by decide⟩

/-- C8 (amended): for every forecast text whose post-truncation,
stripped, lowercased form contains `"thunderstorm"` and `"rain"`, none of
the 18 higher-severity condition phrases, and at least one modifier
phrase, the classifier selects `"Thunderstorm"` by lowest severity index
regardless of textual position, the modifier branch rewrites it to
`"Tstorms"`, and the output contains `"Tstorms"` and not `"Rain"`.
(Without a modifier the rewrite is skipped — see the counterexample.) -/
theorem C8_theorem (s : PStr)
    (hne : s ≠ [])
    (hth : (pyFind (pyLower (pyStrip (truncate_forecast s)))
      (pyLower "Thunderstorm".data)).isSome = true)
    (hrain : (pyFind (pyLower (pyStrip (truncate_forecast s)))
      (pyLower "Rain".data)).isSome = true)
    (hhi : ∀ c ∈ CONDITIONS.take 18,
      pyFind (pyLower (pyStrip (truncate_forecast s))) (pyLower c) = none)
    (hmod : ∃ m ∈ MODIFIERS,
      (pyFind (pyLower (pyStrip (truncate_forecast s))) (pyLower m)).isSome
        = true) :
    pyContains (simplify_forecast (.str s)) "Tstorms".data = true ∧
    pyContains (simplify_forecast (.str s)) "Rain".data = false := by
  have hsne : s.isEmpty = false := by
    cases s with
    | nil => exact absurd rfl hne
    | cons a t => rfl
  have hsf : simplify_forecast (.str s)
      = simplify_after_sep (truncate_forecast s) := by
    simp [simplify_forecast, hsne]
  rw [hsf]
  simp only [simplify_after_sep]
  set u := pyLower (pyStrip (truncate_forecast s)) with hu
  have hstep : ∀ (c : PStr) (l : List PStr), pyFind u (pyLower c) = none →
      List.find? (fun c => (pyFind u (pyLower c)).isSome) (c :: l)
        = List.find? (fun c => (pyFind u (pyLower c)).isSome) l := by
    intro c l hc
    exact List.find?_cons_of_neg l (by simp [hc])
  have h00 := hhi "Tornado".data (by decide)
  have h01 := hhi "Hailstorm".data (by decide)
  have h02 := hhi "Hailstorms".data (by decide)
  have h03 := hhi "Blizzard".data (by decide)
  have h04 := hhi "Winter Storm".data (by decide)
  have h05 := hhi ("Winter Weather".data ++ "Freezing Rain".data) (by decide)
  have h06 := hhi "Freezing Drizzle".data (by decide)
  have h07 := hhi "Hail".data (by decide)
  have h08 := hhi "Sleet".data (by decide)
  have h09 := hhi "Ice".data (by decide)
  have h10 := hhi "Frost".data (by decide)
  have h11 := hhi "Flash Flood".data (by decide)
  have h12 := hhi "Flood".data (by decide)
  have h13 := hhi "Dust Storm".data (by decide)
  have h14 := hhi "Smoke".data (by decide)
  have h15 := hhi "Volcanic Ash".data (by decide)
  have h16 := hhi "Hurricane".data (by decide)
  have h17 := hhi "Tropical storm".data (by decide)
  have hcond : found_condition u = "Thunderstorm".data := by
    rw [found_condition_eq]
    unfold CONDITIONS
    rw [hstep _ _ h00, hstep _ _ h01, hstep _ _ h02, hstep _ _ h03,
      hstep _ _ h04, hstep _ _ h05, hstep _ _ h06, hstep _ _ h07,
      hstep _ _ h08, hstep _ _ h09, hstep _ _ h10, hstep _ _ h11,
      hstep _ _ h12, hstep _ _ h13, hstep _ _ h14, hstep _ _ h15,
      hstep _ _ h16, hstep _ _ h17,
      List.find?_cons_of_pos _ (by simpa using hth)]
    rfl
  rw [hcond]
  have hmodne : found_modifiers u ≠ [] := by
    obtain ⟨m, hm, hms⟩ := hmod
    obtain ⟨p, hp⟩ := Option.isSome_iff_exists.mp hms
    intro hcon
    have hmem : (p, m) ∈ found_modifiers u := by
      apply List.mem_filterMap.mpr
      exact ⟨m, hm, by rw [hp]; rfl⟩
    rw [hcon] at hmem
    cases hmem
  have hfm := found_modifier_mem u hmodne
  revert hfm
  generalize found_modifier u = fm
  intro hfm
  unfold MODIFIERS at hfm
  fin_cases hfm <;> rw [if_neg (by decide)] <;> decide

/-- C8 (witness): `"Chance Thunderstorms and Rain"` contains both
phrases, a modifier, and no higher-severity condition; the output is
`"Chance Tstorms"`. -/
theorem C8_witness :
    pyContains (simplify_forecast (.str "Chance Thunderstorms and Rain".data))
      "Tstorms".data = true ∧
    pyContains (simplify_forecast (.str "Chance Thunderstorms and Rain".data))
      "Rain".data = false :=
  C8_theorem "Chance Thunderstorms and Rain".data (by decide) (by decide)
    (by decide) (by decide) ⟨"Chance".data, by decide, by decide⟩
